import Mathlib

/-!
Verification of the Resolution & Aggregation Pipeline of the
Food-Additive / E-Number checker (`main.py`).

The Python code is shallowly embedded: every function below mirrors one
Python function or expression from `main.py`.  Strings are Lean `String`s
(lists of characters); Python truthiness of a string is modelled as
`≠ ""`, of an `Option` as being `some` of a truthy value where the code
checks it.  The Python string methods used by the code (`lower`, `upper`,
`title`, `strip`, `startswith`, `in`, `replace`) are modelled over ASCII,
which covers every character the code's own tables and keyword lists use.
Network calls are modelled as oracle functions `query ↦ Option response`;
a `none` oracle answer covers every non-200 status, transport fault or
parse failure, which the adapters collapse into absence.
-/

namespace ToxiScan

/-- Python `str.lower` on one character (ASCII model, as in `Char.toLower`). -/
def lowerChar (c : Char) : Char := c.toLower

/-- Python `str.upper` on one character (ASCII model). -/
def upperChar (c : Char) : Char := c.toUpper

/-- Python `str.lower` over a whole string. -/
def pyLower (s : String) : String := ⟨s.data.map lowerChar⟩

/-- Python `str.upper` over a whole string. -/
def pyUpper (s : String) : String := ⟨s.data.map upperChar⟩

/-- Whitespace class of Python's `str.strip` and of the regex class `\s`
(ASCII model: space, tab, newline, carriage return, vertical tab, form feed). -/
def isSpace (c : Char) : Bool :=
  c == ' ' || c == '\t' || c == '\n' || c == '\r' ||
  c == Char.ofNat 11 || c == Char.ofNat 12

/-- Python `str.strip`: drop leading and trailing whitespace. -/
def pyStrip (s : String) : String :=
  ⟨((s.data.dropWhile isSpace).reverse.dropWhile isSpace).reverse⟩

/-- Helper for Python `str.title`: the flag says whether the previous
character was cased (a letter); a letter after a non-letter is upcased,
a letter after a letter is downcased. -/
def titleAux (prevAlpha : Bool) : List Char → List Char
  | [] => []
  | c :: t =>
    (if c.isAlpha then (if prevAlpha then lowerChar c else upperChar c) else c)
      :: titleAux c.isAlpha t

/-- Python `str.title` (ASCII model). -/
def pyTitle (s : String) : String := ⟨titleAux false s.data⟩

/-- Python `"x".replace(" ", "_")`, the fixed joiner used before the
encyclopedia call. -/
def underscoreJoin (s : String) : String :=
  ⟨s.data.map (fun c => if c == ' ' then '_' else c)⟩

/-- Whether `pre` is an initial run of `l` (used to model Python's
substring operator `in`). -/
def leadsList : List Char → List Char → Bool
  | [], _ => true
  | _ :: _, [] => false
  | a :: as, b :: bs => a == b && leadsList as bs

/-- Python's substring test `needle in haystack` on character lists. -/
def hasSub (needle : List Char) : List Char → Bool
  | [] => needle.isEmpty
  | c :: t => leadsList needle (c :: t) || hasSub needle t

/-- Python `dict.get` over an association-list model of a `dict`
with string keys and string values. -/
def lookupStr (k : String) : List (String × String) → Option String
  | [] => none
  | (a, b) :: t => if k = a then some b else lookupStr k t

/-- The hardcoded override table `KNOWN_RISKS` of `main.py`. -/
def knownRisks : List (String × String) :=
  [("e250", "high"), ("e251", "high"), ("e249", "high"), ("e252", "high"),
   ("e621", "moderate"),
   ("e951", "moderate"), ("e950", "moderate"),
   ("e102", "moderate"), ("e129", "moderate"), ("e133", "moderate"),
   ("e171", "high"),
   ("e220", "moderate"),
   ("e211", "moderate"),
   ("e320", "high"), ("e321", "high"),
   ("e924", "high")]

/-- The `high_keywords` list of `analyze_safety`, verbatim from the source
(note the mixed-case entry `"DNA damage"`). -/
def highKeywords : List String :=
  ["carcinogen", "cancer", "banned", "toxic", "DNA damage"]

/-- The `mod_keywords` list of `analyze_safety`. -/
def modKeywords : List String :=
  ["hyperactivity", "allergy", "asthma", "migraine", "intolerance", "children"]

/-- The slice of the OpenFoodFacts per-additive JSON payload that
`main.py` reads: `overexposure_risk.risk`, and
`display_name_translations.en` / `.fr`.  A field holds `some s` when the
corresponding key is present (its value may still be the empty string);
`none` when the key is absent. -/
structure OffData where
  risk : Option String
  nameEn : Option String
  nameFr : Option String
deriving DecidableEq

/-- Check 2 of `analyze_safety`: `data.get("overexposure_risk", {}).get("risk")`
followed by `if api_risk:` — a present, non-empty structured field replaces
the default `"low"`. -/
def dataRisk : Option OffData → String
  | some d =>
    match d.risk with
    | some a => if a ≠ "" then a else "low"
    | none => "low"
  | none => "low"

/-- Checks 1 and 2 of `analyze_safety`: the override table
(`if code and code in KNOWN_RISKS`), else (`elif data`) the structured
field, else the default `"low"`. -/
def baseRisk (data : Option OffData) : Option String → String
  | some c =>
    if c ≠ "" then
      match lookupStr c knownRisks with
      | some v => v
      | none => dataRisk data
    else dataRisk data
  | none => dataRisk data

/-- Check 3 of `analyze_safety`: `if risk_level == "low" and description:`
scan the lowercased description for the keyword lists. -/
def scanRisk (r : String) (description : String) : String :=
  if r = "low" ∧ description ≠ "" then
    let text := pyLower description
    if highKeywords.any (fun k => hasSub k.data text.data) then "high"
    else if modKeywords.any (fun k => hasSub k.data text.data) then "moderate"
    else r
  else r

/-- The `risk_level` value computed by `analyze_safety` just before the
badge is built. -/
def riskLevel (data : Option OffData) (code : Option String)
    (description : String) : String :=
  scanRisk (baseRisk data code) description

/-- The badge dictionary returned by `analyze_safety`. -/
structure Badge where
  label : String
  color : String
  icon : String
deriving DecidableEq

/-- The final badge mapping of `analyze_safety`. -/
def badgeOf (r : String) : Badge :=
  if r = "high" then
    ⟨"High Risk / Avoid", "bg-red-600 text-white", "⚠️"⟩
  else if r = "moderate" then
    ⟨"Moderate Caution", "bg-yellow-500 text-black", "✋"⟩
  else
    ⟨"Safe / Low Risk", "bg-emerald-600 text-white", "✅"⟩

/-- The whole of `analyze_safety` in `main.py`. -/
def analyze_safety (data : Option OffData) (code : Option String)
    (description : String) : Badge :=
  badgeOf (riskLevel data code description)

/-- The `synthetic` keyword list of `analyze_origin`. -/
def syntheticKeywords : List String :=
  ["petroleum", "artificial", "synthetic", "lab", "chemical synthesis",
   "coal tar", "preservative"]

/-- The `natural` keyword list of `analyze_origin`. -/
def naturalKeywords : List String :=
  ["plant", "extracted", "natural", "fruit", "vegetable", "fermentation",
   "animal", "vitamin", "mineral"]

/-- The whole of `analyze_origin` in `main.py`. -/
def analyze_origin (summary : String) : String :=
  if summary = "" then "Origin Unknown"
  else
    let text := pyLower summary
    if syntheticKeywords.any (fun k => hasSub k.data text.data) then
      "Synthetic / Artificial"
    else if naturalKeywords.any (fun k => hasSub k.data text.data) then
      "Natural Origin"
    else "Origin Unknown"

/-- Parse of the leading-prefix regex `^[eE]\d+\s*[-–]\s*` used (via
`re.sub(..., '', name)`) in `fetch_wiki_data`, `fetch_usda` and
`fetch_pubchem_cid`: an `e` or `E`, one or more digits, optional
whitespace, a `-` or `–` separator, optional whitespace.  Returns the
characters after the matched stretch, or `none` when the regex does not
match at the start.  The character classes `\d+`, `\s*` and the separator
set are pairwise disjoint, so the greedy maximal-munch parse below is
exactly the regex's backtracking semantics. -/
def dropLead (l : List Char) : Option (List Char) :=
  match l with
  | [] => none
  | c :: rest =>
    if c == 'e' || c == 'E' then
      if (rest.takeWhile Char.isDigit).isEmpty then none
      else
        match (rest.dropWhile Char.isDigit).dropWhile isSpace with
        | s :: r3 =>
          if s == '-' || s == '–' then some (r3.dropWhile isSpace) else none
        | [] => none
    else none

/-- The code-prefix strip `re.sub(r'^[eE]\d+\s*[-–]\s*', '', name)`:
remove the matched stretch when the regex matches, otherwise return the
string unchanged. -/
def stripLead (s : String) : String :=
  match dropLead s.data with
  | some r => ⟨r⟩
  | none => s

/-- Continuation of `parseCodeName` after the digit group `ds`: the rest
of the input (whitespace after the digits already dropped) must start
with a `-`, `–` or `_` separator, and the residue after further
whitespace is the name group. -/
def afterDigits (ds : List Char) : List Char → Option (String × String)
  | [] => none
  | sep :: r3 =>
    if sep == '-' || sep == '–' || sep == '_' then
      let nm := r3.dropWhile isSpace
      if nm.isEmpty || nm.any (fun c => c == '\n') then none
      else some (⟨'e' :: ds⟩, ⟨nm⟩)
    else none

/-- Parse of the input-cleaning regex `^([e]\d+)\s*[-–_]\s*(.+)$` of
`analyze_endpoint`, applied to the already lowercased and stripped query:
group 1 is the `e`+digits code, group 2 the name after the separator.
`.` does not match a newline, so on a stripped input (which cannot end
in whitespace) the regex matches exactly when the residue after the
separator and whitespace is non-empty and newline-free, and group 2 is
that whole residue. -/
def parseCodeName (s : String) : Option (String × String) :=
  match s.data with
  | [] => none
  | ch :: rest =>
    if ch == 'e' then
      if (rest.takeWhile Char.isDigit).isEmpty then none
      else
        afterDigits (rest.takeWhile Char.isDigit)
          ((rest.dropWhile Char.isDigit).dropWhile isSpace)
    else none

/-- Python `query_clean.startswith('e')`. -/
def startsWithE (s : String) : Bool :=
  match s.data with
  | c :: _ => c == 'e'
  | [] => false

/-- The input-cleaning step of `analyze_endpoint` (the Normalizer):
lowercase and strip the raw query; split on the explicit
code-separator-name pattern if it matches; otherwise look the string up
in the taxonomy dictionary, and if that yields nothing truthy and the
string starts with `e` and contains a digit anywhere, use the whole
string as the code.  Returns `(e_code, search_name)`. -/
def normalize (tax : List (String × String)) (raw : String) :
    Option String × String :=
  let q := pyStrip (pyLower raw)
  match parseCodeName q with
  | some (c, n) => (some c, n)
  | none =>
    let t := lookupStr q tax
    let t' :=
      if (t = none ∨ t = some "") ∧ (startsWithE q ∧ q.data.any Char.isDigit)
      then some q else t
    (t', q)

/-- Predicate of the spec's invariant: the string is the letter `e`
followed by one or more digits and nothing else. -/
def isECode (s : String) : Bool :=
  match s.data with
  | [] => false
  | c :: ds => c == 'e' && (!ds.isEmpty && ds.all Char.isDigit)

/-- Slice of the Wikipedia summary payload read by `main.py`:
the `extract` field (`some ""` models a present empty extract). -/
structure WikiData where
  extract : Option String
deriving DecidableEq

/-- Slice of the USDA search payload read by `main.py`: `totalHits` and
the `description` of the first food, `none` when `foods[0]["description"]`
is missing (a `KeyError`/`IndexError` there is swallowed into `False`). -/
structure UsdaResp where
  totalHits : Int
  firstDesc : Option String
deriving DecidableEq

/-- Slice of the PubChem identifier payload read by `main.py`:
`IdentifierList.CID`, an integer list (absent list modelled as `[]` since
the code only tests emptiness and takes the head). -/
structure PubResp where
  cids : List Int
deriving DecidableEq

/-- The network, one oracle per provider, keyed by the query string each
fetcher builds after its in-code text transforms; `none` covers non-200
statuses and every transport, parse or decode fault, which the adapters
collapse into absence.  URL templating and percent-encoding are injective
addressing details folded into the oracle. -/
structure Oracles where
  off : String → Option OffData
  wiki : String → Option WikiData
  usda : String → Option UsdaResp
  prods : String → Option (List (String × String))
  pubchem : String → Option PubResp

/-- The adapter `fetch_off_data`: requires a truthy code, queries by the
part of the code before the first space (`code.split(' ')[0]`). -/
def fetch_off_data (net : String → Option OffData) (code : Option String) :
    Option OffData :=
  match code with
  | some c =>
    if c ≠ "" then net ⟨c.data.takeWhile (fun ch => ch != ' ')⟩ else none
  | none => none

/-- The adapter `fetch_wiki_data`: requires a truthy name, strips the
leading e-code, then title-cases and joins words with underscores before
querying. -/
def fetch_wiki_data (net : String → Option WikiData) (name : String) :
    Option WikiData :=
  if name ≠ "" then net (underscoreJoin (pyTitle (pyStrip (stripLead name))))
  else none

/-- The adapter `fetch_usda`.  Returns the boolean result paired with the
list of network requests issued (so that "no network request" is a
provable statement).  With an unset/empty key or empty name it returns
`False` before touching the client; otherwise it issues one request with
the stripped name and, on success with hits, tests whether the cleaned
name is a case-insensitive substring of the first food's description. -/
def fetch_usda (net : String → Option UsdaResp) (apiKey : Option String)
    (name : String) : Bool × List String :=
  if apiKey = none ∨ apiKey = some "" ∨ name = "" then (false, [])
  else
    let clean := stripLead name
    match net clean with
    | some d =>
      (if d.totalHits > 0 then
        match d.firstDesc with
        | some fd => hasSub (pyLower clean).data (pyLower fd).data
        | none => false
      else false, [clean])
    | none => (false, [clean])

/-- The adapter `fetch_products`: query by the code when truthy, else by
the name; empty query yields `[]`, as does any failure. -/
def fetch_products (net : String → Option (List (String × String)))
    (code : Option String) (name : String) : List (String × String) :=
  let q := match code with
           | some c => if c ≠ "" then c else name
           | none => name
  if q ≠ "" then (net q).getD [] else []

/-- The adapter `fetch_pubchem_cid`: requires a truthy name, strips and
trims the leading e-code, queries, and returns the first CID when the
list is non-empty. -/
def fetch_pubchem_cid (net : String → Option PubResp) (name : String) :
    Option Int :=
  if name ≠ "" then
    match net (pyStrip (stripLead name)) with
    | some d => d.cids.head?
    | none => none
  else none

/-- The `/api/autocomplete` endpoint: case-insensitive substring filter
over the flat taxonomy list, first 10 matches in list order. -/
def autocomplete (taxonomyList : List String) (q : String) : List String :=
  let qLower := pyLower q
  (taxonomyList.filter (fun x => hasSub qLower.data (pyLower x).data)).take 10

/-- Canonical-name resolution step of `analyze_endpoint`: prefer the
registry's English display name, then the French one, else the normalized
search name (`names.get("en", names.get("fr", search_name))`). -/
def canonicalNameOf (o : Oracles) (tax : List (String × String))
    (query : String) : String :=
  let r := normalize tax query
  match fetch_off_data o.off r.1 with
  | some d => d.nameEn.getD (d.nameFr.getD r.2)
  | none => r.2

/-- The PubChem structure-image URL built from a CID. -/
def cidImageUrl (cid : Int) : String :=
  "https://pubchem.ncbi.nlm.nih.gov/rest/pug/compound/cid/" ++ toString cid
    ++ "/PNG?record_type=2d&image_size=300x300"

/-- The name-based fallback structure-image URL (percent-encoding folded
into the addressing model). -/
def nameImageUrl (name : String) : String :=
  "https://pubchem.ncbi.nlm.nih.gov/rest/pug/compound/name/" ++ name
    ++ "/PNG?record_type=2d&image_size=300x300"

/-- The JSON body assembled by `analyze_endpoint` on the success path. -/
structure AnalyzeResponse where
  identityName : String
  identityCode : String
  safety : Badge
  origin : String
  description : String
  usdaVerified : Bool
  structureImage : String
  products : List (String × String)
deriving DecidableEq

/-- The `/api/analyze/{query}` endpoint of `main.py` (success path; the
embedded pipeline is total, so the top-level exception handler is
unreachable in the model). -/
def analyzeEndpoint (tax : List (String × String)) (o : Oracles)
    (apiKey : Option String) (query : String) : AnalyzeResponse :=
  let r := normalize tax query
  let offData := fetch_off_data o.off r.1
  let canonicalName :=
    match offData with
    | some d => d.nameEn.getD (d.nameFr.getD r.2)
    | none => r.2
  let wikiData := fetch_wiki_data o.wiki canonicalName
  let usdaVerified := (fetch_usda o.usda apiKey canonicalName).1
  let products := fetch_products o.prods r.1 canonicalName
  let pubchemCid := fetch_pubchem_cid o.pubchem canonicalName
  let description :=
    match wikiData with
    | some w => w.extract.getD "Description unavailable."
    | none => "Description unavailable."
  let imgUrl :=
    match pubchemCid with
    | some n => if n ≠ 0 then cidImageUrl n else nameImageUrl canonicalName
    | none => nameImageUrl canonicalName
  { identityName := pyTitle canonicalName
    identityCode :=
      match r.1 with
      | some c => if c ≠ "" then pyUpper c else "Unknown"
      | none => "Unknown"
    safety := analyze_safety offData r.1 description
    origin := analyze_origin description
    description := description
    usdaVerified := usdaVerified
    structureImage := imgUrl
    products := products }

/-! ## Helper lemmas -/

/-- A successful association-list lookup comes from a member pair. -/
theorem lookupStr_mem {k v : String} :
    ∀ {l : List (String × String)}, lookupStr k l = some v → (k, v) ∈ l := by
  intro l
  induction l with
  | nil => intro h; exact absurd h (by simp [lookupStr])
  | cons p t ih =>
    intro h
    obtain ⟨a, b⟩ := p
    by_cases hk : k = a
    · subst hk
      simp only [lookupStr, if_pos rfl] at h
      cases h
      exact List.mem_cons_self _ _
    · simp only [lookupStr, if_neg hk] at h
      exact List.mem_cons_of_mem _ (ih h)

/-- Every entry of the override table has a non-empty key and a value of
`"high"` or `"moderate"` — never `"low"`. -/
theorem knownRisks_vals :
    ∀ p ∈ knownRisks, p.1 ≠ "" ∧ (p.2 = "high" ∨ p.2 = "moderate") := by
  decide

/-- The keyword scan leaves any risk level other than `"low"` unchanged. -/
theorem scanRisk_of_ne_low {r : String} (h : r ≠ "low") (d : String) :
    scanRisk r d = r := by
  unfold scanRisk
  rw [if_neg]
  exact fun hc => h hc.1

/-- A present, non-empty structured field is what check 2 returns. -/
theorem dataRisk_eq {d : OffData} {v : String} (h : d.risk = some v)
    (hv : v ≠ "") : dataRisk (some d) = v := by
  obtain ⟨r, en, fr⟩ := d
  have hr : r = some v := h
  subst hr
  simp [dataRisk, hv]

/-- Check 1 of `analyze_safety` does not fire: the code is absent, empty,
or not a key of the override table. -/
def NoOverride (code : Option String) : Prop :=
  code = none ∨ ∃ c, code = some c ∧ (c = "" ∨ lookupStr c knownRisks = none)

/-- When check 1 does not fire, checks 1–2 reduce to the structured field. -/
theorem baseRisk_no_override {data : Option OffData} {code : Option String}
    (h : NoOverride code) : baseRisk data code = dataRisk data := by
  rcases h with h | ⟨c, rfl, hc | hc⟩
  · subst h; rfl
  · subst hc; simp [baseRisk]
  · simp only [baseRisk]
    by_cases hne : c = ""
    · subst hne; simp
    · rw [if_pos hne, hc]

/-- Shared core of the structured-field claims: with no override and a
present, non-empty structured value other than `"low"`, `risk_level` is
that value verbatim. -/
theorem riskLevel_structured {d : OffData} {code : Option String}
    {v : String} (hcode : NoOverride code) (hrisk : d.risk = some v)
    (hv : v ≠ "") (hlow : v ≠ "low") (desc : String) :
    riskLevel (some d) code desc = v := by
  unfold riskLevel
  rw [baseRisk_no_override hcode, dataRisk_eq hrisk hv]
  exact scanRisk_of_ne_low hlow desc

/-! ## Claims -/

/-- C1: for every code that is a key of the override table `KNOWN_RISKS`,
`analyze_safety` yields that table's risk value for every provider payload
and every description: neither the structured field nor the keyword scan
can change it (all table values are `"high"` or `"moderate"`, and the
scan only fires on `"low"`). -/
theorem known_override (c v : String) (h : lookupStr c knownRisks = some v)
    (data : Option OffData) (desc : String) :
    riskLevel data (some c) desc = v ∧
    analyze_safety data (some c) desc = badgeOf v := by
  have hf := knownRisks_vals _ (lookupStr_mem h)
  have hne : c ≠ "" := hf.1
  have hv : v ≠ "low" := by
    rcases hf.2 with h' | h'
    · have hv' : v = "high" := h'
      subst hv'; decide
    · have hv' : v = "moderate" := h'
      subst hv'; decide
  have hbase : baseRisk data (some c) = v := by
    simp only [baseRisk]
    rw [if_pos hne, h]
  have hrl : riskLevel data (some c) desc = v := by
    unfold riskLevel
    rw [hbase]
    exact scanRisk_of_ne_low hv desc
  exact ⟨hrl, by unfold analyze_safety; rw [hrl]⟩

/-- Witness for C1 at the concrete override entry `e171` (titanium
dioxide), with no provider data and a description full of safe words. -/
theorem known_override_witness :
    riskLevel none (some "e171") "a natural plant mineral" = "high" ∧
    analyze_safety none (some "e171") "a natural plant mineral" =
      badgeOf "high" :=
  known_override "e171" "high" (by decide) none "a natural plant mineral"

/-- C2, counterexample: `e999` is not in the override table, the
structured field supplies `"low"`, yet the description keyword scan
escalates the result to `"high"` — the structured value is not returned
verbatim. -/
theorem structured_low_escalates :
    lookupStr "e999" knownRisks = none ∧
    riskLevel (some ⟨some "low", none, none⟩) (some "e999")
      "linked to cancer" = "high" ∧
    ("high" : String) ≠ "low" := by decide

/-- C2 as amended: with no override, a present non-empty structured value
other than `"low"` is returned verbatim for every description; a
structured `"low"` is instead re-examined by the keyword scan. -/
theorem structured_nonlow_verbatim (d : OffData) (code : Option String)
    (desc v : String) (hcode : NoOverride code) (hrisk : d.risk = some v)
    (hv : v ≠ "") (hlow : v ≠ "low") :
    riskLevel (some d) code desc = v :=
  riskLevel_structured hcode hrisk hv hlow desc

/-- Witness for the amended C2: a provider-specific level is passed
through untouched even with `"cancer"` in the description. -/
theorem structured_nonlow_verbatim_witness :
    riskLevel (some ⟨some "provider-level", none, none⟩) none
      "causes cancer" = "provider-level" :=
  structured_nonlow_verbatim ⟨some "provider-level", none, none⟩ none
    "causes cancer" "provider-level" (Or.inl rfl) rfl (by decide) (by decide)

/-- C3: the high-severity keyword `"DNA damage"` is compared in mixed case
against the lowercased description, so it can never match: a description
containing `"dna damage"` (and no other danger word) is classified
`"low"` / `"Safe / Low Risk"`, although the lowercased term is present in
the lowercased text, i.e. a case-insensitive scan would have said high. -/
theorem dna_damage_keyword_dead :
    riskLevel none none "studies found dna damage in cells" = "low" ∧
    (analyze_safety none none "studies found dna damage in cells").label =
      "Safe / Low Risk" ∧
    hasSub (pyLower "DNA damage").data
      (pyLower "studies found dna damage in cells").data = true := by decide

/-- C9, counterexample: a structured value of `"low"` is neither `"high"`
nor `"moderate"`, yet with a dangerous description the badge is
`"High Risk / Avoid"`, not `"Safe / Low Risk"`. -/
theorem badge_low_escalates :
    ("low" : String) ≠ "high" ∧ ("low" : String) ≠ "moderate" ∧
    (analyze_safety (some ⟨some "low", none, none⟩) (some "e999")
      "may cause cancer").label = "High Risk / Avoid" := by decide

/-- C9 as amended: `analyze_safety` always returns one of the three fixed
badges, and any structured risk value other than `"high"`, `"moderate"`
and `"low"` is rendered as the `"Safe / Low Risk"` badge for every
description; a structured `"low"` may instead be escalated by the keyword
scan. -/
theorem badge_totality_and_unknown_levels :
    (∀ data code desc,
      (analyze_safety data code desc).label = "High Risk / Avoid" ∨
      (analyze_safety data code desc).label = "Moderate Caution" ∨
      (analyze_safety data code desc).label = "Safe / Low Risk") ∧
    (∀ (d : OffData) (code : Option String) (desc v : String),
      NoOverride code → d.risk = some v → v ≠ "" → v ≠ "high" →
      v ≠ "moderate" → v ≠ "low" →
      (analyze_safety (some d) code desc).label = "Safe / Low Risk") := by
  constructor
  · intro data code desc
    unfold analyze_safety badgeOf
    split_ifs <;> simp
  · intro d code desc v hcode hrisk hv hhigh hmod hlow
    have hrl := riskLevel_structured hcode hrisk hv hlow desc
    unfold analyze_safety badgeOf
    rw [hrl, if_neg hhigh, if_neg hmod]

/-- Witness for the amended C9 at concrete inputs: totality at one badge
and the unknown-level clause at the value `"weird"`. -/
theorem badge_totality_and_unknown_levels_witness :
    ((analyze_safety none none "x").label = "High Risk / Avoid" ∨
     (analyze_safety none none "x").label = "Moderate Caution" ∨
     (analyze_safety none none "x").label = "Safe / Low Risk") ∧
    (analyze_safety (some ⟨some "weird", none, none⟩) none "cancer").label =
      "Safe / Low Risk" :=
  ⟨badge_totality_and_unknown_levels.1 none none "x",
   badge_totality_and_unknown_levels.2 ⟨some "weird", none, none⟩ none
     "cancer" "weird" (Or.inl rfl) rfl (by decide) (by decide) (by decide)
     (by decide)⟩

/-- A string the strip regex does not match at the start is a fixed point
of the strip transform. -/
theorem stripLead_eq_self {t : String} (h : dropLead t.data = none) :
    stripLead t = t := by
  simp only [stripLead]
  rw [h]

/-- C4, counterexample: the strip transform is not idempotent — on
`"e1-e2-x"` one application yields `"e2-x"`, a second strips again and
yields `"x"`. -/
theorem stripLead_not_idempotent :
    stripLead "e1-e2-x" = "e2-x" ∧
    stripLead (stripLead "e1-e2-x") = "x" ∧
    stripLead (stripLead "e1-e2-x") ≠ stripLead "e1-e2-x" := by decide

/-- C4 as amended: each application strips at most one leading
`e<digits>`+separator stretch, so the transform is idempotent exactly on
strings whose once-stripped result no longer begins with such a stretch. -/
theorem stripLead_conditional_idem (s : String)
    (h : dropLead (stripLead s).data = none) :
    stripLead (stripLead s) = stripLead s :=
  stripLead_eq_self h

/-- Witness for the amended C4 at `"e9- hello"`, whose stripped form
`"hello"` carries no further code stretch. -/
theorem stripLead_conditional_idem_witness :
    stripLead "e9- hello" = "hello" ∧
    stripLead (stripLead "e9- hello") = stripLead "e9- hello" :=
  ⟨by decide, stripLead_conditional_idem "e9- hello" (by decide)⟩

/-- Every character kept by `takeWhile` satisfies the predicate. -/
theorem all_takeWhile (p : Char → Bool) :
    ∀ l : List Char, (l.takeWhile p).all p = true := by
  intro l
  induction l with
  | nil => rfl
  | cons c t ih =>
    by_cases hc : p c
    · simp [List.takeWhile_cons, hc, ih]
    · simp [List.takeWhile_cons, hc]

/-- Inversion of the input-cleaning regex: a successful parse always has
a non-empty name group and a code group of shape `e<digits>`. -/
theorem parseCodeName_shape {s c n : String}
    (h : parseCodeName s = some (c, n)) : n ≠ "" ∧ isECode c = true := by
  cases hs : s.data with
  | nil => simp [parseCodeName, hs] at h
  | cons ch rest =>
    simp only [parseCodeName, hs] at h
    by_cases he : ch == 'e'
    · rw [if_pos he] at h
      by_cases hds : (rest.takeWhile Char.isDigit).isEmpty
      · rw [if_pos hds] at h
        cases h
      · rw [if_neg hds] at h
        cases hr2 : (rest.dropWhile Char.isDigit).dropWhile isSpace with
        | nil => rw [hr2] at h; cases h
        | cons sep r3 =>
          rw [hr2] at h
          simp only [afterDigits] at h
          by_cases hsep : (sep == '-' || sep == '–' || sep == '_') = true
          · rw [if_pos hsep] at h
            by_cases hnm : ((r3.dropWhile isSpace).isEmpty ||
                (r3.dropWhile isSpace).any (fun c => c == '\n')) = true
            · rw [if_pos hnm] at h
              cases h
            · rw [if_neg hnm] at h
              have hcn : c = ⟨'e' :: rest.takeWhile Char.isDigit⟩ ∧
                  n = ⟨r3.dropWhile isSpace⟩ := by
                cases h
                exact ⟨rfl, rfl⟩
              obtain ⟨hc, hn⟩ := hcn
              constructor
              · subst hn
                intro habs
                have hdata : (r3.dropWhile isSpace) = ([] : List Char) :=
                  congrArg String.data habs
                apply hnm
                rw [hdata]
                simp
              · subst hc
                simp only [isECode]
                have hall := all_takeWhile Char.isDigit rest
                have hne : ((rest.takeWhile Char.isDigit).isEmpty = false) := by
                  simpa using hds
                simp [hall, hne]
          · rw [if_neg hsep] at h
            cases h
    · rw [if_neg he] at h
      cases h

/-- C5 as amended: when the cleaned query matches the explicit
code-separator-name regex, the normalizer returns exactly that split, the
name is non-empty and the code matches `e<digits>`; on the fallback paths
the name is the cleaned query itself (possibly empty for whitespace-only
input). -/
theorem normalize_pattern_path (tax : List (String × String)) (raw : String) :
    (∀ c n, parseCodeName (pyStrip (pyLower raw)) = some (c, n) →
      normalize tax raw = (some c, n) ∧ n ≠ "" ∧ isECode c = true) ∧
    (parseCodeName (pyStrip (pyLower raw)) = none →
      (normalize tax raw).2 = pyStrip (pyLower raw)) := by
  constructor
  · intro c n hp
    have hs := parseCodeName_shape hp
    refine ⟨?_, hs.1, hs.2⟩
    simp only [normalize, hp]
  · intro hp
    simp only [normalize, hp]

/-- Witness for the amended C5 on the spec's own end-to-end example
`"E330 - Citric Acid"`. -/
theorem normalize_pattern_path_witness :
    normalize [] "E330 - Citric Acid" = (some "e330", "citric acid") ∧
    ("citric acid" : String) ≠ "" ∧ isECode "e330" = true :=
  (normalize_pattern_path [] "E330 - Citric Acid").1 "e330" "citric acid"
    (by decide)

/-- C5, counterexample: with an empty taxonomy, a whitespace-only query
normalizes to an empty name, and `"egg2"` (digit not immediately after
`e`) becomes a code that does not match `e<digits>`. -/
theorem normalize_invariant_fails :
    (normalize [] "   ").2 = "" ∧
    (normalize [] "egg2").1 = some "egg2" ∧
    isECode "egg2" = false := by decide

/-- C6, counterexample: `"egg2"` matches no explicit pattern and no
taxonomy entry, its first digit comes only after other letters, yet the
normalizer does treat the whole string as a code. -/
theorem fallback_code_takes_egg2 :
    parseCodeName "egg2" = none ∧ lookupStr "egg2" [] = none ∧
    (normalize [] "egg2").1 = some "egg2" := by decide

/-- C6 as amended: when neither the explicit pattern nor the taxonomy
resolves the cleaned query, the whole string becomes the code exactly
when it starts with `e` and contains at least one digit anywhere in the
string (not necessarily immediately after the `e`). -/
theorem fallback_code_rule (tax : List (String × String)) (raw q : String)
    (hq : pyStrip (pyLower raw) = q) (hp : parseCodeName q = none)
    (ht : lookupStr q tax = none) :
    ((normalize tax raw).1 = some q ↔
      (startsWithE q ∧ q.data.any Char.isDigit)) := by
  simp only [normalize, hq, hp, ht]
  by_cases hc : (startsWithE q = true ∧ q.data.any Char.isDigit = true)
  · simp [hc]
  · rw [if_neg (by simpa using fun h2 => hc h2)]
    constructor
    · intro habs
      exact absurd habs (by simp)
    · intro hcond
      exact absurd hcond hc

/-- Witness for the amended C6 at `"e33a"`: it starts with `e` and
contains a digit, so the whole string is taken as the code. -/
theorem fallback_code_rule_witness :
    (normalize [] "e33a").1 = some "e33a" :=
  (fallback_code_rule [] "e33a" "e33a" (by decide) (by decide) rfl).mpr
    (by decide)

/-- C7: with an unset (or empty) USDA credential, `fetch_usda` returns
`False` and issues no network request at all, for every name and every
network behaviour; and the analyze response still reports
`usda_verified = false`. -/
theorem usda_disabled (net : String → Option UsdaResp)
    (tax : List (String × String)) (o : Oracles) (key : Option String)
    (query name : String) (hkey : key = none ∨ key = some "") :
    fetch_usda net key name = (false, []) ∧
    (analyzeEndpoint tax o key query).usdaVerified = false := by
  have hf : ∀ (net' : String → Option UsdaResp) (nm : String),
      fetch_usda net' key nm = (false, []) := by
    intro net' nm
    simp only [fetch_usda]
    rw [if_pos]
    rcases hkey with h | h
    · exact Or.inl h
    · exact Or.inr (Or.inl h)
  refine ⟨hf net name, ?_⟩
  simp only [analyzeEndpoint]
  rw [hf]

/-- The all-absent network: every provider oracle answers `none`. -/
def noNet : Oracles :=
  ⟨fun _ => none, fun _ => none, fun _ => none, fun _ => none, fun _ => none⟩

/-- Witness for C7 with no credential, a dead network and the query
`"e330"`. -/
theorem usda_disabled_witness :
    fetch_usda (fun _ => none) none "citric acid" = (false, []) ∧
    (analyzeEndpoint [] noNet none "e330").usdaVerified = false :=
  usda_disabled (fun _ => none) [] noNet none "e330" "citric acid"
    (Or.inl rfl)

/-- C8: autocomplete is exactly the case-insensitive substring filter of
the taxonomy list, truncated to the first 10 matches: it equals
`take 10` of the filtered list, has at most 10 entries, is a sublist of
the taxonomy list (so matches keep index-build order), and every returned
entry contains the fragment case-insensitively. -/
theorem autocomplete_spec (l : List String) (q : String) :
    autocomplete l q =
      (l.filter (fun x => hasSub (pyLower q).data (pyLower x).data)).take 10 ∧
    (autocomplete l q).length ≤ 10 ∧
    (autocomplete l q).Sublist l ∧
    (∀ x ∈ autocomplete l q,
      hasSub (pyLower q).data (pyLower x).data = true) := by
  have he : autocomplete l q =
      (l.filter (fun x => hasSub (pyLower q).data (pyLower x).data)).take 10 :=
    rfl
  refine ⟨he, ?_, ?_, ?_⟩
  · rw [he]
    exact List.length_take_le _ _
  · rw [he]
    exact (List.take_sublist _ _).trans (List.filter_sublist _)
  · intro x hx
    rw [he] at hx
    exact (List.mem_filter.mp (List.mem_of_mem_take hx)).2

/-- Upper-casing keeps a string non-empty. -/
theorem pyUpper_ne_empty {s : String} (h : s ≠ "") : pyUpper s ≠ "" := by
  intro hc
  apply h
  have hmap : s.data.map upperChar = ([] : List Char) :=
    congrArg String.data hc
  have hd : s.data = [] := List.map_eq_nil_iff.mp hmap
  exact String.ext (by rw [hd])

/-- C10: the `identity.code` field of the analyze response is never
absent: it is the upper-cased resolved code when one was resolved (to a
non-empty string) and the literal `"Unknown"` otherwise; `identity.name`
is the title-cased canonical name. -/
theorem identity_fields (tax : List (String × String)) (o : Oracles)
    (key : Option String) (query : String) :
    (analyzeEndpoint tax o key query).identityCode ≠ "" ∧
    (analyzeEndpoint tax o key query).identityCode =
      (match (normalize tax query).1 with
       | some c => if c ≠ "" then pyUpper c else "Unknown"
       | none => "Unknown") ∧
    (analyzeEndpoint tax o key query).identityName =
      pyTitle (canonicalNameOf o tax query) := by
  refine ⟨?_, rfl, rfl⟩
  have hcode : (analyzeEndpoint tax o key query).identityCode =
      (match (normalize tax query).1 with
       | some c => if c ≠ "" then pyUpper c else "Unknown"
       | none => "Unknown") := rfl
  rw [hcode]
  cases hn : (normalize tax query).1 with
  | none => decide
  | some c =>
    show (if c ≠ "" then pyUpper c else "Unknown") ≠ ""
    by_cases hc : c = ""
    · subst hc
      decide
    · rw [if_pos hc]
      exact pyUpper_ne_empty hc

end ToxiScan
